import Mathlib

/-!
Verification of the ticketing-frontend cart core: the localStorage-backed
cart store (`updateCart` in src/components/ticket-counter.tsx), the ticket
counter component state machine (`handleIncrease` / `handleDecrease`), and
the checkout reconciler (`fetchCartData` in src/pages/checkout.tsx), embedded
shallowly in Lean.

Modelling conventions:
* JavaScript objects whose keys are canonical array-index strings (the cart
  maps event-id and ticket-id keys, always written from numbers) are embedded
  as association lists `List (Nat × α)` kept in key insertion order.
  Property read, write and delete operate on the first matching key.
  Per ECMA-262 OrdinaryOwnPropertyKeys, enumeration of such keys
  (`Object.entries` / `Object.keys`) yields ascending numeric key order,
  embedded here by sorting the association list by key (`jsEntries`).
* JS numbers are embedded as `Int`; the quantities, prices and availability
  values exercised by the repository are integers.
* `JSON.parse` is a platform builtin, not repository code. It is modelled
  (from the spec, section 6: the `ticketCart` key holds a JSON object of
  event-id string keys mapping to objects of ticket-id string keys mapping to
  quantities) by `jsonParseCart`, a recursive-descent parser for exactly that
  cart-shaped JSON fragment; `none` models the parse throwing. On strings
  that are not valid JSON the real `JSON.parse` throws as well; valid JSON
  that is not cart-shaped is outside the model.
-/

namespace Ticketing

/-- Category record from src/lib/types (`Category`). -/
structure Category where
  id : Nat
  name : String
  event_count : Nat
  created_at : String
  updated_at : String
deriving DecidableEq, Repr

/-- Ticket record from src/lib/types (`Ticket`); `price` and
`tickets_available` are JS numbers, embedded as `Int`. -/
structure Ticket where
  id : Nat
  price : Int
  name : String
  tickets_available : Int
  created_at : String
  updated_at : String
deriving DecidableEq, Repr

/-- Event status union from src/lib/types (`Event.status`). -/
inductive EventStatus
  | cancelled
  | postponed
  | active
  | completed
deriving DecidableEq, Repr

/-- Event record from src/lib/types (`Event`). -/
structure Event where
  id : Nat
  name : String
  description : String
  venue : String
  poster : String
  status : EventStatus
  category_id : Nat
  start_date : String
  end_date : String
  created_at : String
  updated_at : String
  tickets : List Ticket
  category : Category
deriving DecidableEq, Repr

/-! ### JavaScript object model

A JS object with canonical array-index keys, as an association list in key
insertion order. -/

/-- A JavaScript object keyed by canonical numeric-string keys. -/
abbrev JsObj (α : Type) := List (Nat × α)

/-- Property read `o[k]`: the value at the first entry with key `k`,
`none` = undefined. -/
def jsGet {α : Type} : JsObj α → Nat → Option α
  | [], _ => none
  | (k0, v0) :: rest, k => if k0 = k then some v0 else jsGet rest k

/-- Property write `o[k] = v`: replaces the value of an existing key in
place, appends a fresh key at the end (JS insertion-order semantics). -/
def jsSet {α : Type} : JsObj α → Nat → α → JsObj α
  | [], k, v => [(k, v)]
  | (k0, v0) :: rest, k, v =>
      if k0 = k then (k, v) :: rest else (k0, v0) :: jsSet rest k v

/-- Property delete `delete o[k]`: removes the first entry with key `k`. -/
def jsDelete {α : Type} : JsObj α → Nat → JsObj α
  | [], _ => []
  | (k0, v0) :: rest, k =>
      if k0 = k then rest else (k0, v0) :: jsDelete rest k

/-- Enumeration order of `Object.entries` / `Object.keys` on an object all of
whose keys are canonical array indices: ascending numeric key order
(ECMA-262 OrdinaryOwnPropertyKeys). -/
def jsEntries {α : Type} (o : JsObj α) : List (Nat × α) :=
  o.insertionSort (fun a b => a.1 ≤ b.1)

/-- Keys of `Object.keys`, in enumeration order. -/
def jsKeys {α : Type} (o : JsObj α) : List Nat :=
  (jsEntries o).map (fun p => p.1)

/-! ### The persisted cart -/

/-- Inner cart object: ticket-id key to selected quantity. -/
abbrev TicketMap := JsObj Int

/-- The `ticketCart` structure: event-id key to ticket-quantity object
(`SavedCart` in src/pages/checkout.tsx). -/
abbrev SavedCart := JsObj TicketMap

/-- Well-formedness of a JS object value: its keys are distinct, as they are
for every object built by property writes or by `JSON.parse`. -/
def objWF {α : Type} (o : JsObj α) : Prop :=
  (o.map (fun p => p.1)).Nodup

/-- Well-formedness of a persisted cart: distinct event keys, and distinct
ticket keys within each event. -/
def cartWF (cart : SavedCart) : Prop :=
  objWF cart ∧ ∀ p ∈ cart, objWF p.2

instance {α : Type} (o : JsObj α) : Decidable (objWF o) := by
  unfold objWF; infer_instance

instance (cart : SavedCart) : Decidable (cartWF cart) := by
  unfold cartWF; exact instDecidableAnd

/-! ### Cart store: `updateCart` (src/components/ticket-counter.tsx, lines 116-141)

Reads the current cart, ensures the event entry exists, deletes the ticket
entry when the quantity is exactly 0 (pruning the event when it empties),
otherwise upserts the quantity, and writes the cart back. -/

/-- The mutation performed by `updateCart` on the parsed cart object. -/
def updateCart (cart : SavedCart) (eventId : Nat) (ticketIdToUpdate : Nat)
    (quantity : Int) : SavedCart :=
  let cart1 := if (jsGet cart eventId).isSome then cart else jsSet cart eventId []
  let evTickets := (jsGet cart1 eventId).getD []
  if quantity = 0 then
    let evTickets2 := jsDelete evTickets ticketIdToUpdate
    if evTickets2.length = 0 then jsDelete cart1 eventId
    else jsSet cart1 eventId evTickets2
  else
    jsSet cart1 eventId (jsSet evTickets ticketIdToUpdate quantity)

/-! ### Ticket counter component (src/components/ticket-counter.tsx) -/

/-- The mount-time read (lines 74-77): `cart[eventId] || \x7b\x7d`, then
`eventTickets[ticketId] || 0`. -/
def mountCount (cart : SavedCart) (eventId ticketId : Nat) : Int :=
  (jsGet ((jsGet cart eventId).getD []) ticketId).getD 0

/-- Component state: the displayed `count`, the persisted cart behind
localStorage, and the trace of `onCountChange` notifications (latest last). -/
structure CounterState where
  count : Int
  cart : SavedCart
  notified : List Int
deriving DecidableEq, Repr

/-- Mount: `setCount(eventTickets[ticketId] || 0)`. -/
def counterMount (cart : SavedCart) (eventId ticketId : Nat) : CounterState :=
  { count := mountCount cart eventId ticketId, cart := cart, notified := [] }

/-- The `handleIncrease` handler (lines 84-91): guarded by
`count < availableTickets`. -/
def handleIncrease (eventId ticketId : Nat) (availableTickets : Int)
    (s : CounterState) : CounterState :=
  if s.count < availableTickets then
    { count := s.count + 1,
      cart := updateCart s.cart eventId ticketId (s.count + 1),
      notified := s.notified ++ [s.count + 1] }
  else s

/-- The `handleDecrease` handler (lines 97-104): guarded by `count > 0`. -/
def handleDecrease (eventId ticketId : Nat) (s : CounterState) : CounterState :=
  if 0 < s.count then
    { count := s.count - 1,
      cart := updateCart s.cart eventId ticketId (s.count - 1),
      notified := s.notified ++ [s.count - 1] }
  else s

/-- A user interaction with the counter. -/
inductive CounterOp
  | increase
  | decrease
deriving DecidableEq, Repr

/-- One step of the counter component. -/
def counterStep (eventId ticketId : Nat) (availableTickets : Int)
    (s : CounterState) : CounterOp → CounterState
  | CounterOp.increase => handleIncrease eventId ticketId availableTickets s
  | CounterOp.decrease => handleDecrease eventId ticketId s

/-- Run a sequence of interactions from the mounted state. -/
def runCounter (cart : SavedCart) (eventId ticketId : Nat)
    (availableTickets : Int) (ops : List CounterOp) : CounterState :=
  ops.foldl (counterStep eventId ticketId availableTickets)
    (counterMount cart eventId ticketId)

/-! ### Checkout reconciler (src/pages/checkout.tsx, `fetchCartData`) -/

/-- Cart item type from src/pages/checkout.tsx (`CartItem`). -/
structure CartItem where
  id : Nat
  eventId : Nat
  name : String
  ticketName : String
  eventName : String
  price : Int
  quantity : Int
  ticketsAvailable : Int
deriving DecidableEq, Repr

/-- The `eventsMap` lookup: the map is built by a forEach over the response,
later records with the same id overwriting earlier ones. -/
def lookupEventsMap (eventsData : List Event) (eventId : Nat) : Option Event :=
  eventsData.foldl (fun acc e => if e.id == eventId then some e else acc) none

/-- Construction of one emitted cart item (lines 130-139). -/
def mkCartItem (eventData : Event) (ticket : Ticket) (quantity : Int) : CartItem :=
  { id := ticket.id
    eventId := eventData.id
    name := eventData.name ++ " - " ++ ticket.name
    ticketName := ticket.name
    eventName := eventData.name
    price := ticket.price
    quantity := quantity
    ticketsAvailable := ticket.tickets_available }

/-- Body of the inner forEach (lines 123-142): find the ticket by id, push an
item and add to the running total when found, skip otherwise. -/
def reconcileTicketStep (eventData : Event) (acc : List CartItem × Int)
    (p : Nat × Int) : List CartItem × Int :=
  match eventData.tickets.find? (fun t => t.id == p.1) with
  | none => acc
  | some ticket =>
      (acc.1 ++ [mkCartItem eventData ticket p.2], acc.2 + ticket.price * p.2)

/-- Body of the outer forEach (lines 117-143): skip the event when absent
from the events map, otherwise fold over its ticket entries. -/
def reconcileEventStep (eventsData : List Event) (acc : List CartItem × Int)
    (p : Nat × TicketMap) : List CartItem × Int :=
  match lookupEventsMap eventsData p.1 with
  | none => acc
  | some eventData => (jsEntries p.2).foldl (reconcileTicketStep eventData) acc

/-- The single pass of lines 113-143: items in emission order, paired with
the running total. -/
def fetchCartDataCore (savedCart : SavedCart) (eventsData : List Event) :
    List CartItem × Int :=
  (jsEntries savedCart).foldl (reconcileEventStep eventsData) ([], 0)

/-- Outcome of the batched `/events?ids=...` fetch: a parsed response body,
or a network failure / non-ok status (both throw into the catch block). -/
inductive FetchResult
  | ok (eventsData : List Event)
  | fail
deriving Repr

/-- Terminal UI state of `fetchCartData`: the catch-block error state, or
loaded items and total. -/
inductive CheckoutState
  | errorState
  | loaded (items : List CartItem) (total : Int)
deriving DecidableEq, Repr

/-- Observable result of one `fetchCartData` run: the terminal state and
whether the network fetch was issued. -/
structure CheckoutRun where
  state : CheckoutState
  fetchIssued : Bool
deriving DecidableEq, Repr

/-- The `fetchCartData` control flow after the localStorage read has been
parsed (`none` = `JSON.parse` threw): parse failure is caught and surfaced as
the error state before any fetch; an empty key set returns empty items and
total 0 without fetching (lines 84-92); otherwise the fetch is issued and a
failure throws into the catch block while a response is reconciled. -/
def fetchCartDataParsed (parsed : Option SavedCart) (fetch : FetchResult) :
    CheckoutRun :=
  match parsed with
  | none => { state := CheckoutState.errorState, fetchIssued := false }
  | some savedCart =>
    if (jsKeys savedCart).length = 0 then
      { state := CheckoutState.loaded [] 0, fetchIssued := false }
    else
      match fetch with
      | FetchResult.fail => { state := CheckoutState.errorState, fetchIssued := true }
      | FetchResult.ok eventsData =>
          { state := CheckoutState.loaded (fetchCartDataCore savedCart eventsData).1
              (fetchCartDataCore savedCart eventsData).2,
            fetchIssued := true }

/-! ### JSON.parse model for the `ticketCart` string -/

/-- The opening brace character, code point 123. -/
def lbrace : Char := Char.ofNat 123

/-- The closing brace character, code point 125. -/
def rbrace : Char := Char.ofNat 125

/-- JSON insignificant whitespace. -/
def isJsonWs (c : Char) : Bool := c == ' ' || c == '\t' || c == '\n' || c == '\r'

/-- Drop leading JSON whitespace. -/
def skipWs : List Char → List Char
  | [] => []
  | c :: cs => if isJsonWs c then skipWs cs else c :: cs

/-- Split off a maximal run of leading ASCII digits. -/
def takeDigits : List Char → List Char × List Char
  | [] => ([], [])
  | c :: cs =>
    if c.isDigit then
      let r := takeDigits cs
      (c :: r.1, r.2)
    else ([], c :: cs)

/-- Decimal value of a digit run. -/
def digitsToNat (ds : List Char) : Nat :=
  ds.foldl (fun n c => 10 * n + (c.toNat - 48)) 0

/-- Parse a quoted numeric object key, as all cart keys are stringified
numbers. -/
def parseNatKey : List Char → Option (Nat × List Char)
  | '"' :: cs =>
    let r := takeDigits cs
    if r.1.isEmpty then none
    else
      match r.2 with
      | '"' :: cs2 => some (digitsToNat r.1, cs2)
      | _ => none
  | _ => none

/-- Parse a JSON integer (optional minus sign and a digit run). -/
def parseIntValue : List Char → Option (Int × List Char)
  | '-' :: cs =>
    let r := takeDigits cs
    if r.1.isEmpty then none else some (-(digitsToNat r.1 : Int), r.2)
  | cs =>
    let r := takeDigits cs
    if r.1.isEmpty then none else some ((digitsToNat r.1 : Int), r.2)

/-- Parse the members of a non-empty inner (ticket-quantity) object, starting
after the opening brace. Duplicate keys overwrite, as in `JSON.parse`. -/
def parseTicketMembers : Nat → TicketMap → List Char → Option (TicketMap × List Char)
  | 0, _, _ => none
  | fuel + 1, acc, cs =>
    match parseNatKey (skipWs cs) with
    | none => none
    | some kr =>
      match skipWs kr.2 with
      | ':' :: cs2 =>
        match parseIntValue (skipWs cs2) with
        | none => none
        | some vr =>
          match skipWs vr.2 with
          | c :: cs3 =>
            if c = ',' then parseTicketMembers fuel (jsSet acc kr.1 vr.1) cs3
            else if c = rbrace then some (jsSet acc kr.1 vr.1, cs3)
            else none
          | [] => none
      | _ => none

/-- Parse an inner (ticket-quantity) object. -/
def parseTicketObj (fuel : Nat) (cs : List Char) : Option (TicketMap × List Char) :=
  match skipWs cs with
  | c :: cs2 =>
    if c = lbrace then
      match skipWs cs2 with
      | c2 :: cs3 =>
        if c2 = rbrace then some ([], cs3) else parseTicketMembers fuel [] (c2 :: cs3)
      | [] => none
    else none
  | [] => none

/-- Parse the members of a non-empty outer (event) object, starting after the
opening brace. -/
def parseCartMembers : Nat → SavedCart → List Char → Option (SavedCart × List Char)
  | 0, _, _ => none
  | fuel + 1, acc, cs =>
    match parseNatKey (skipWs cs) with
    | none => none
    | some kr =>
      match skipWs kr.2 with
      | ':' :: cs2 =>
        match parseTicketObj fuel cs2 with
        | none => none
        | some vr =>
          match skipWs vr.2 with
          | c :: cs3 =>
            if c = ',' then parseCartMembers fuel (jsSet acc kr.1 vr.1) cs3
            else if c = rbrace then some (jsSet acc kr.1 vr.1, cs3)
            else none
          | [] => none
      | _ => none

/-- Modelled from the spec: `JSON.parse` (a platform builtin, absent from the
repository sources) restricted to the persisted cart shape of section 6 — a
JSON object mapping stringified event ids to objects mapping stringified
ticket ids to integer quantities. `none` models the parse throwing; every
string that is not valid JSON is rejected, exactly as `JSON.parse` throws on
it. -/
def jsonParseCart (s : String) : Option SavedCart :=
  match skipWs s.data with
  | c :: cs2 =>
    if c = lbrace then
      match skipWs cs2 with
      | c2 :: cs3 =>
        if c2 = rbrace then
          if (skipWs cs3).isEmpty then some [] else none
        else
          match parseCartMembers (s.data.length + 1) [] (c2 :: cs3) with
          | none => none
          | some r => if (skipWs r.2).isEmpty then some r.1 else none
      | [] => none
    else none
  | [] => none

/-- The read expression `JSON.parse(localStorage.getItem("ticketCart") || "\x7b\x7d")`
shared by the counter (line 74 and line 118) and the reconciler (lines
79-81): an absent key (`getItem` returns null) and an empty stored string are
both falsy, so the literal for the empty object is parsed instead. -/
def parseTicketCart (stored : Option String) : Option SavedCart :=
  match stored with
  | none => jsonParseCart (String.mk [lbrace, rbrace])
  | some s => if s = "" then jsonParseCart (String.mk [lbrace, rbrace]) else jsonParseCart s

/-- The counter mount effect (lines 71-78) at the string level: no
try/catch, so a parse failure (`none`) propagates out of the effect. -/
def ticketCounterMountRead (stored : Option String) (eventId ticketId : Nat) :
    Option Int :=
  (parseTicketCart stored).map (fun cart => mountCount cart eventId ticketId)

/-- The store write path at the string level: `updateCart` re-reads and
parses storage (line 118) with no try/catch, so a parse failure propagates. -/
def updateCartStored (stored : Option String) (eventId ticketId : Nat)
    (quantity : Int) : Option SavedCart :=
  (parseTicketCart stored).map (fun cart => updateCart cart eventId ticketId quantity)

/-- The whole `fetchCartData` run from the raw stored string: the try block
wraps the parse, so a parse failure lands in the catch block before the fetch
is issued. -/
def fetchCartData (stored : Option String) (fetch : FetchResult) : CheckoutRun :=
  fetchCartDataParsed (parseTicketCart stored) fetch

/-! ### Specification-side reconciliation views -/

/-- Sum of unit price times quantity over a list of line items. -/
def itemsTotal (items : List CartItem) : Int :=
  (items.map (fun it => it.price * it.quantity)).sum

/-- Items emitted for a list of ticket entries of one found event: entries
whose ticket id is absent from the fetched ticket array are skipped. -/
def ticketItemsOf (eventData : Event) (l : List (Nat × Int)) : List CartItem :=
  l.filterMap (fun p =>
    (eventData.tickets.find? (fun t => t.id == p.1)).map
      (fun tk => mkCartItem eventData tk p.2))

/-- Items emitted for one found event: its ticket entries in enumeration
order. -/
def reconcileEventItems (eventData : Event) (tm : TicketMap) : List CartItem :=
  ticketItemsOf eventData (jsEntries tm)

/-- Items emitted for a list of event entries: entries whose event id is
absent from the events map are skipped. -/
def eventItemsOf (eventsData : List Event) (l : List (Nat × TicketMap)) : List CartItem :=
  l.flatMap (fun p =>
    match lookupEventsMap eventsData p.1 with
    | none => []
    | some eventData => reconcileEventItems eventData p.2)

/-- The emitted line items as a flat map over the cart's enumeration order. -/
def reconcileItems (savedCart : SavedCart) (eventsData : List Event) : List CartItem :=
  eventItemsOf eventsData (jsEntries savedCart)

/-- Nested read of the persisted structure: the quantity entry for ticket `t`
under event `e`, `none` when either level has no entry. -/
def jsGet2 (cart : SavedCart) (e t : Nat) : Option Int :=
  (jsGet cart e).bind (fun m => jsGet m t)

/-- Strict emission order expected of reconciled line items: ascending event
id, and ascending ticket id within an event. -/
def itemLt (a b : CartItem) : Prop :=
  a.eventId < b.eventId ∨ (a.eventId = b.eventId ∧ a.id < b.id)

instance : DecidableRel itemLt := fun a b => by
  unfold itemLt; infer_instance

/-- Combined lookup of a cart entry's event and ticket in the fetch
response. -/
def eventTicketLookup (eventsData : List Event) (e t : Nat) : Option (Event × Ticket) :=
  (lookupEventsMap eventsData e).bind
    (fun ev => (ev.tickets.find? (fun tk => tk.id == t)).map (fun tk => (ev, tk)))

/-- Follows the words of the spec (section 5 ordering guarantee), not the
source: emits line items by traversing the stored cart in insertion order of
event keys, then insertion order of ticket keys within each event. Compared
against `fetchCartDataCore` to settle the ordering claim. -/
def reconcileItemsInsertionOrder (savedCart : SavedCart) (eventsData : List Event) :
    List CartItem :=
  savedCart.flatMap (fun p =>
    match lookupEventsMap eventsData p.1 with
    | none => []
    | some eventData =>
        p.2.filterMap (fun q =>
          (eventData.tickets.find? (fun t => t.id == q.1)).map
            (fun tk => mkCartItem eventData tk q.2)))

/-! ### Checkout submission (src/pages/checkout.tsx, lines 53-60 and 158-168) -/

/-- Shallow embedding of the zod schema regex on `phone`: a leading plus, one
digit from 1 to 9, then 1 to 14 further digits, anchored at both ends. -/
def phoneRegexAccepts (s : String) : Bool :=
  match s.data with
  | c0 :: c1 :: rest =>
      c0 == '+' && decide ('1' ≤ c1) && decide (c1 ≤ '9') && rest.all Char.isDigit &&
        decide (1 ≤ rest.length) && decide (rest.length ≤ 14)
  | _ => false

/-- Outcome of a submission attempt. -/
inductive SubmitOutcome
  | fieldError
  | placedOrder (phone : String)
deriving DecidableEq, Repr

/-- Modelled from the spec: the react-hook-form `handleSubmit` +
`zodResolver(schema)` gate (library code, absent from the repository
sources) runs `onSubmit` only when the schema accepts the phone value, and
otherwise surfaces the field-level error without any network attempt. -/
def checkoutSubmit (phone : String) : SubmitOutcome :=
  if phoneRegexAccepts phone then SubmitOutcome.placedOrder phone
  else SubmitOutcome.fieldError

/-- The phone format exactly as the claim words it: a leading plus, a first
digit that is a digit other than 0, then more digits, the total number of
digits after the plus lying between 2 and 15. -/
def PhoneClaimFormat (s : String) : Prop :=
  ∃ d ds, s.data = '+' :: d :: ds ∧ d.isDigit = true ∧ d ≠ '0' ∧
    (∀ c ∈ ds, c.isDigit = true) ∧ 2 ≤ ds.length + 1 ∧ ds.length + 1 ≤ 15

/-! ### Concrete fixtures -/

/-- Placeholder category for concrete events. -/
def catOne : Category :=
  { id := 1, name := "Music", event_count := 1, created_at := "", updated_at := "" }

/-- The VIP ticket of the worked example: id 10, price 1000, 5 available. -/
def vipTicket : Ticket :=
  { id := 10, price := 1000, name := "VIP", tickets_available := 5,
    created_at := "", updated_at := "" }

/-- The Regular ticket of the worked example: id 11, price 500, 20
available. -/
def regularTicket : Ticket :=
  { id := 11, price := 500, name := "Regular", tickets_available := 20,
    created_at := "", updated_at := "" }

/-- Event 1 of the worked example, named Event1, with the VIP and Regular
tickets. -/
def eventOne : Event :=
  { id := 1, name := "Event1", description := "", venue := "", poster := "",
    status := EventStatus.active, category_id := 1, start_date := "",
    end_date := "", created_at := "", updated_at := "", tickets := [vipTicket, regularTicket],
    category := catOne }

/-- The persisted cart string of the worked example. -/
def cartOneStr : String := "\x7b\"1\":\x7b\"10\":2,\"11\":1\x7d\x7d"

/-! ## Lemmas: property read, write and delete on the JS object model -/

theorem jsGet_set_self {α : Type} (o : JsObj α) (k : Nat) (v : α) :
    jsGet (jsSet o k v) k = some v := by
  induction o with
  | nil => simp [jsGet, jsSet]
  | cons p rest ih =>
      obtain ⟨k0, v0⟩ := p
      by_cases h : k0 = k
      · simp [jsSet, h, jsGet]
      · simp [jsSet, h, jsGet, ih]

theorem jsGet_set_ne {α : Type} (o : JsObj α) {k k2 : Nat} (v : α) (h : k2 ≠ k) :
    jsGet (jsSet o k v) k2 = jsGet o k2 := by
  induction o with
  | nil => simp [jsGet, jsSet, Ne.symm h]
  | cons p rest ih =>
      obtain ⟨k0, v0⟩ := p
      by_cases h0 : k0 = k
      · subst h0
        simp [jsSet, jsGet, Ne.symm h]
      · by_cases h2 : k0 = k2 <;> simp [jsSet, h0, jsGet, h2, ih, h]

theorem jsGet_delete_ne {α : Type} (o : JsObj α) {k k2 : Nat} (h : k2 ≠ k) :
    jsGet (jsDelete o k) k2 = jsGet o k2 := by
  induction o with
  | nil => simp [jsDelete]
  | cons p rest ih =>
      obtain ⟨k0, v0⟩ := p
      by_cases h0 : k0 = k
      · subst h0
        simp [jsDelete, jsGet, Ne.symm h]
      · by_cases h2 : k0 = k2 <;> simp [jsDelete, h0, jsGet, h2, ih, h]

theorem jsGet_eq_none_iff {α : Type} (o : JsObj α) (k : Nat) :
    jsGet o k = none ↔ k ∉ o.map (fun p => p.1) := by
  induction o with
  | nil => simp [jsGet]
  | cons p rest ih =>
      obtain ⟨k0, v0⟩ := p
      by_cases h0 : k0 = k
      · subst h0
        simp [jsGet, ih]
      · simp [jsGet, h0, ih, Ne.symm h0]

theorem jsGet_delete_self {α : Type} {o : JsObj α} (k : Nat) (hwf : objWF o) :
    jsGet (jsDelete o k) k = none := by
  induction o with
  | nil => simp [jsDelete, jsGet]
  | cons p rest ih =>
      obtain ⟨k0, v0⟩ := p
      rw [objWF, List.map_cons, List.nodup_cons] at hwf
      by_cases h0 : k0 = k
      · subst h0
        simp only [jsDelete, if_pos rfl]
        exact (jsGet_eq_none_iff rest k0).mpr hwf.1
      · simp [jsDelete, h0, jsGet, ih hwf.2]

theorem jsGet_mem {α : Type} {o : JsObj α} {k : Nat} {v : α}
    (h : jsGet o k = some v) : (k, v) ∈ o := by
  induction o with
  | nil => simp [jsGet] at h
  | cons p rest ih =>
      obtain ⟨k0, v0⟩ := p
      by_cases h0 : k0 = k
      · subst h0
        simp [jsGet] at h
        simp [h]
      · simp [jsGet, h0] at h
        exact List.mem_cons_of_mem _ (ih h)

theorem jsSet_of_get_none {α : Type} {o : JsObj α} {k : Nat} (v : α)
    (h : jsGet o k = none) : jsSet o k v = o ++ [(k, v)] := by
  induction o with
  | nil => simp [jsSet]
  | cons p rest ih =>
      obtain ⟨k0, v0⟩ := p
      by_cases h0 : k0 = k
      · simp [jsGet, h0] at h
      · simp [jsGet, h0] at h
        simp [jsSet, h0, ih h]

theorem jsDelete_of_get_none {α : Type} {o : JsObj α} {k : Nat}
    (h : jsGet o k = none) : jsDelete o k = o := by
  induction o with
  | nil => simp [jsDelete]
  | cons p rest ih =>
      obtain ⟨k0, v0⟩ := p
      by_cases h0 : k0 = k
      · simp [jsGet, h0] at h
      · simp [jsGet, h0] at h
        simp [jsDelete, h0, ih h]

theorem jsDelete_append_of_get_none {α : Type} {o : JsObj α} {k : Nat} (v : α)
    (h : jsGet o k = none) : jsDelete (o ++ [(k, v)]) k = o := by
  induction o with
  | nil => simp [jsDelete]
  | cons p rest ih =>
      obtain ⟨k0, v0⟩ := p
      by_cases h0 : k0 = k
      · simp [jsGet, h0] at h
      · simp [jsGet, h0] at h
        simp [jsDelete, h0, ih h]

theorem mem_jsSet {α : Type} {o : JsObj α} {k : Nat} {v : α} {p : Nat × α}
    (h : p ∈ jsSet o k v) : p ∈ o ∨ p = (k, v) := by
  induction o with
  | nil => simp [jsSet] at h; simp [h]
  | cons q rest ih =>
      obtain ⟨k0, v0⟩ := q
      by_cases h0 : k0 = k
      · subst h0
        simp [jsSet] at h
        rcases h with h | h
        · right; simp [h]
        · left; exact List.mem_cons_of_mem _ h
      · simp [jsSet, h0] at h
        rcases h with h | h
        · left; simp [h]
        · rcases ih h with h2 | h2
          · left; exact List.mem_cons_of_mem _ h2
          · right; exact h2

theorem mem_keys_jsSet {α : Type} (o : JsObj α) (k a : Nat) (v : α) :
    a ∈ (jsSet o k v).map (fun p => p.1) ↔ a ∈ o.map (fun p => p.1) ∨ a = k := by
  induction o with
  | nil => simp [jsSet]
  | cons p rest ih =>
      obtain ⟨k0, v0⟩ := p
      by_cases h0 : k0 = k
      · subst h0
        simp [jsSet]
        tauto
      · simp [jsSet, h0, ih]
        tauto

theorem objWF_set {α : Type} {o : JsObj α} (k : Nat) (v : α) (h : objWF o) :
    objWF (jsSet o k v) := by
  induction o with
  | nil => simp [objWF, jsSet]
  | cons p rest ih =>
      obtain ⟨k0, v0⟩ := p
      rw [objWF, List.map_cons, List.nodup_cons] at h
      by_cases h0 : k0 = k
      · subst h0
        rw [jsSet, if_pos rfl, objWF, List.map_cons, List.nodup_cons]
        exact h
      · rw [jsSet, if_neg h0, objWF, List.map_cons, List.nodup_cons]
        refine ⟨?_, ih h.2⟩
        rw [mem_keys_jsSet]
        push_neg
        exact ⟨h.1, h0⟩

theorem jsDelete_sublist {α : Type} (o : JsObj α) (k : Nat) :
    List.Sublist (jsDelete o k) o := by
  induction o with
  | nil => simp [jsDelete]
  | cons p rest ih =>
      obtain ⟨k0, v0⟩ := p
      by_cases h0 : k0 = k
      · rw [jsDelete, if_pos h0]
        exact List.Sublist.cons _ (List.Sublist.refl _)
      · rw [jsDelete, if_neg h0]
        exact List.Sublist.cons₂ _ ih

theorem objWF_delete {α : Type} {o : JsObj α} (k : Nat) (h : objWF o) :
    objWF (jsDelete o k) :=
  List.Nodup.sublist (List.Sublist.map _ (jsDelete_sublist o k)) h

theorem jsDelete_eq_nil {α : Type} {o : JsObj α} {k : Nat}
    (h : jsDelete o k = []) : o = [] ∨ ∃ v, o = [(k, v)] := by
  cases o with
  | nil => exact Or.inl rfl
  | cons p rest =>
      obtain ⟨k0, v0⟩ := p
      by_cases h0 : k0 = k
      · subst h0
        rw [jsDelete, if_pos rfl] at h
        subst h
        exact Or.inr ⟨v0, rfl⟩
      · rw [jsDelete, if_neg h0] at h
        exact absurd h (List.cons_ne_nil _ _)

/-! ## Lemmas: well-formedness and effect of `updateCart` -/

theorem objWF_nil {α : Type} : objWF ([] : JsObj α) := by
  simp [objWF]

theorem cartWF_jsSet {cart : SavedCart} {m : TicketMap} (e : Nat)
    (hc : cartWF cart) (hm : objWF m) : cartWF (jsSet cart e m) := by
  refine ⟨objWF_set e m hc.1, fun p hp => ?_⟩
  rcases mem_jsSet hp with h | h
  · exact hc.2 p h
  · rw [h]
    exact hm

theorem cartWF_jsDelete {cart : SavedCart} (e : Nat) (hc : cartWF cart) :
    cartWF (jsDelete cart e) :=
  ⟨objWF_delete e hc.1, fun p hp => hc.2 p ((jsDelete_sublist cart e).subset hp)⟩

theorem objWF_of_jsGet {cart : SavedCart} {e : Nat} {m : TicketMap}
    (hc : cartWF cart) (h : jsGet cart e = some m) : objWF m :=
  hc.2 (e, m) (jsGet_mem h)

theorem cartWF_ensure {cart : SavedCart} (e : Nat) (hc : cartWF cart) :
    cartWF (if (jsGet cart e).isSome then cart else jsSet cart e []) := by
  split
  · exact hc
  · exact cartWF_jsSet e hc objWF_nil

/-- Normal form of `updateCart` when the event already has an entry. -/
theorem updateCart_eq_of_get_some {cart : SavedCart} {e : Nat} {m : TicketMap}
    (t : Nat) (q : Int) (hg : jsGet cart e = some m) :
    updateCart cart e t q =
      if q = 0 then
        if (jsDelete m t).length = 0 then jsDelete cart e
        else jsSet cart e (jsDelete m t)
      else jsSet cart e (jsSet m t q) := by
  simp only [updateCart, hg, Option.isSome_some, if_true, Option.getD_some]

/-- Normal form of `updateCart` when the event has no entry: the entry is
created empty first, so the quantity-0 path prunes it again. -/
theorem updateCart_eq_of_get_none {cart : SavedCart} {e : Nat} (t : Nat)
    (q : Int) (hg : jsGet cart e = none) :
    updateCart cart e t q =
      if q = 0 then jsDelete (jsSet cart e []) e
      else jsSet (jsSet cart e []) e (jsSet [] t q) := by
  simp only [updateCart, hg, Option.isSome_none, Bool.false_eq_true, if_false,
    jsGet_set_self, Option.getD_some, jsDelete, List.length_nil, if_pos rfl,
    if_true]

theorem cartWF_updateCart {cart : SavedCart} (e t : Nat) (q : Int)
    (hc : cartWF cart) : cartWF (updateCart cart e t q) := by
  cases hg : jsGet cart e with
  | none =>
      have hset : cartWF (jsSet cart e []) := cartWF_jsSet e hc objWF_nil
      rw [updateCart_eq_of_get_none t q hg]
      by_cases hq : q = 0
      · rw [if_pos hq]
        exact cartWF_jsDelete e hset
      · rw [if_neg hq]
        exact cartWF_jsSet e hset (objWF_set t q objWF_nil)
  | some m =>
      have hm : objWF m := objWF_of_jsGet hc hg
      rw [updateCart_eq_of_get_some t q hg]
      by_cases hq : q = 0
      · rw [if_pos hq]
        split
        · exact cartWF_jsDelete e hc
        · exact cartWF_jsSet e hc (objWF_delete t hm)
      · rw [if_neg hq]
        exact cartWF_jsSet e hc (objWF_set t q hm)

/-- The quantity entry written by `updateCart` at its own (event, ticket)
key: deleted when the quantity is exactly 0, stored otherwise. -/
theorem jsGet2_updateCart_self {cart : SavedCart} (e t : Nat) (q : Int)
    (hc : cartWF cart) :
    jsGet2 (updateCart cart e t q) e t = if q = 0 then none else some q := by
  cases hg : jsGet cart e with
  | none =>
      have hset : cartWF (jsSet cart e []) := cartWF_jsSet e hc objWF_nil
      rw [updateCart_eq_of_get_none t q hg]
      by_cases hq : q = 0
      · rw [if_pos hq, if_pos hq, jsGet2, jsGet_delete_self e hset.1]
        rfl
      · rw [if_neg hq, if_neg hq, jsGet2, jsGet_set_self, Option.some_bind,
          jsGet_set_self]
  | some m =>
      have hm : objWF m := objWF_of_jsGet hc hg
      rw [updateCart_eq_of_get_some t q hg]
      by_cases hq : q = 0
      · rw [if_pos hq, if_pos hq]
        split
        · rw [jsGet2, jsGet_delete_self e hc.1]
          rfl
        · rw [jsGet2, jsGet_set_self, Option.some_bind]
          exact jsGet_delete_self t hm
      · rw [if_neg hq, if_neg hq, jsGet2, jsGet_set_self, Option.some_bind,
          jsGet_set_self]

/-- The displayed-count read always agrees with the nested store read,
defaulting to 0. -/
theorem mountCount_eq_jsGet2 (cart : SavedCart) (e t : Nat) :
    mountCount cart e t = (jsGet2 cart e t).getD 0 := by
  rw [mountCount, jsGet2]
  cases jsGet cart e with
  | none => rfl
  | some m => rfl

theorem mountCount_updateCart {cart : SavedCart} (e t : Nat) (q : Int)
    (hc : cartWF cart) : mountCount (updateCart cart e t q) e t = q := by
  rw [mountCount_eq_jsGet2, jsGet2_updateCart_self e t q hc]
  by_cases hq : q = 0
  · simp [hq]
  · simp [hq]

/-- Setting quantity 0 on an event absent from the cart restores the cart
unchanged: the entry created on the fly is pruned again. -/
theorem updateCart_zero_of_get_none {cart : SavedCart} {e : Nat} (t : Nat)
    (hg : jsGet cart e = none) : updateCart cart e t 0 = cart := by
  rw [updateCart_eq_of_get_none t 0 hg, if_pos rfl, jsSet_of_get_none _ hg]
  exact jsDelete_append_of_get_none ([] : TicketMap) hg

/-- Setting quantity 0 on an event whose only ticket entry is the one being
removed deletes the event entry itself. -/
theorem updateCart_zero_last_ticket {cart : SavedCart} {e t : Nat} {m : TicketMap}
    (hc : cartWF cart) (hg : jsGet cart e = some m) (hlast : jsDelete m t = []) :
    jsGet (updateCart cart e t 0) e = none := by
  rw [updateCart_eq_of_get_some t 0 hg, if_pos rfl, hlast]
  simp only [List.length_nil, if_true]
  exact jsGet_delete_self e hc.1

/-! ## Lemmas: frame properties of `updateCart` -/

/-- Event entries other than the written one are untouched. -/
theorem updateCart_get_other {cart : SavedCart} {e x : Nat} (t : Nat) (q : Int)
    (hx : x ≠ e) : jsGet (updateCart cart e t q) x = jsGet cart x := by
  cases hg : jsGet cart e with
  | none =>
      rw [updateCart_eq_of_get_none t q hg]
      by_cases hq : q = 0
      · rw [if_pos hq, jsGet_delete_ne _ hx, jsGet_set_ne _ _ hx]
      · rw [if_neg hq, jsGet_set_ne _ _ hx, jsGet_set_ne _ _ hx]
  | some m =>
      rw [updateCart_eq_of_get_some t q hg]
      by_cases hq : q = 0
      · rw [if_pos hq]
        split
        · exact jsGet_delete_ne _ hx
        · exact jsGet_set_ne _ _ hx
      · rw [if_neg hq]
        exact jsGet_set_ne _ _ hx

/-- Ticket entries under the written event, other than the written ticket,
keep their previous quantity. -/
theorem updateCart_get2_other {cart : SavedCart} {e t y : Nat} (q : Int)
    (hc : cartWF cart) (hy : y ≠ t) :
    jsGet2 (updateCart cart e t q) e y = jsGet2 cart e y := by
  cases hg : jsGet cart e with
  | none =>
      by_cases hq : q = 0
      · rw [hq, updateCart_zero_of_get_none t hg]
      · rw [updateCart_eq_of_get_none t q hg, if_neg hq, jsGet2,
          jsGet_set_self, Option.some_bind, jsGet_set_ne _ _ hy, jsGet2, hg,
          Option.none_bind]
        rfl
  | some m =>
      rw [updateCart_eq_of_get_some t q hg]
      by_cases hq : q = 0
      · rw [if_pos hq]
        split
        · rename_i hlen
          have hnil : jsDelete m t = [] := List.length_eq_zero.mp hlen
          have hmy : jsGet m y = none := by
            rcases jsDelete_eq_nil hnil with h | ⟨v, h⟩ <;> subst h
            · rfl
            · simp [jsGet, Ne.symm hy]
          rw [jsGet2, jsGet_delete_self e hc.1, Option.none_bind, jsGet2, hg,
            Option.some_bind, hmy]
        · rw [jsGet2, jsGet_set_self, Option.some_bind,
            jsGet_delete_ne _ hy, jsGet2, hg, Option.some_bind]
      · rw [if_neg hq, jsGet2, jsGet_set_self, Option.some_bind,
          jsGet_set_ne _ _ hy, jsGet2, hg, Option.some_bind]

/-! ## Lemmas: the counter state machine -/

/-- The invariant carried through every counter interaction: bounds, a
well-formed cart, agreement between the displayed count and a fresh store
read, and the last notification equalling the displayed count. -/
theorem counterStep_inv (e t : Nat) (C : Int) (s : CounterState) (op : CounterOp)
    (hwf : cartWF s.cart) (h0 : 0 ≤ s.count) (hC : s.count ≤ C)
    (hsync : s.count = mountCount s.cart e t)
    (hlast : s.notified = [] ∨ s.notified.getLast? = some s.count) :
    cartWF (counterStep e t C s op).cart ∧
      0 ≤ (counterStep e t C s op).count ∧ (counterStep e t C s op).count ≤ C ∧
      (counterStep e t C s op).count = mountCount (counterStep e t C s op).cart e t ∧
      ((counterStep e t C s op).notified = [] ∨
        (counterStep e t C s op).notified.getLast? = some (counterStep e t C s op).count) := by
  cases op with
  | increase =>
      rw [counterStep, handleIncrease]
      split
      · rename_i hlt
        refine ⟨cartWF_updateCart e t _ hwf, ?_, ?_, ?_, ?_⟩
        · dsimp only; omega
        · dsimp only; omega
        · dsimp only; exact (mountCount_updateCart e t _ hwf).symm
        · right
          dsimp only
          simp [List.getLast?_concat]
      · exact ⟨hwf, h0, hC, hsync, hlast⟩
  | decrease =>
      rw [counterStep, handleDecrease]
      split
      · rename_i hpos
        refine ⟨cartWF_updateCart e t _ hwf, ?_, ?_, ?_, ?_⟩
        · dsimp only; omega
        · dsimp only; omega
        · dsimp only; exact (mountCount_updateCart e t _ hwf).symm
        · right
          dsimp only
          simp [List.getLast?_concat]
      · exact ⟨hwf, h0, hC, hsync, hlast⟩

/-- The invariant holds after any interaction sequence whose starting stored
quantity lies within the stock bounds. -/
theorem runCounter_inv (e t : Nat) (C : Int) (cart : SavedCart)
    (ops : List CounterOp) (hwf : cartWF cart)
    (h0 : 0 ≤ mountCount cart e t) (hC : mountCount cart e t ≤ C) :
    cartWF (runCounter cart e t C ops).cart ∧
      0 ≤ (runCounter cart e t C ops).count ∧
      (runCounter cart e t C ops).count ≤ C ∧
      (runCounter cart e t C ops).count = mountCount (runCounter cart e t C ops).cart e t ∧
      ((runCounter cart e t C ops).notified = [] ∨
        (runCounter cart e t C ops).notified.getLast? =
          some (runCounter cart e t C ops).count) := by
  rw [runCounter]
  have hbase : cartWF (counterMount cart e t).cart ∧
      0 ≤ (counterMount cart e t).count ∧ (counterMount cart e t).count ≤ C ∧
      (counterMount cart e t).count = mountCount (counterMount cart e t).cart e t ∧
      ((counterMount cart e t).notified = [] ∨
        (counterMount cart e t).notified.getLast? = some (counterMount cart e t).count) :=
    ⟨hwf, h0, hC, rfl, Or.inl rfl⟩
  generalize (counterMount cart e t) = s at hbase
  induction ops generalizing s with
  | nil => exact hbase
  | cons op rest ih =>
      rw [List.foldl_cons]
      exact ih _ (counterStep_inv e t C s op hbase.1 hbase.2.1 hbase.2.2.1
        hbase.2.2.2.1 hbase.2.2.2.2)

/-! ## Lemmas: enumeration order -/

instance {α : Type} : IsTotal (Nat × α) (fun a b => a.1 ≤ b.1) :=
  ⟨fun a b => Nat.le_total a.1 b.1⟩

instance {α : Type} : IsTrans (Nat × α) (fun a b => a.1 ≤ b.1) :=
  ⟨fun _ _ _ h1 h2 => Nat.le_trans h1 h2⟩

theorem mem_jsEntries {α : Type} {o : JsObj α} {p : Nat × α} :
    p ∈ jsEntries o ↔ p ∈ o :=
  (List.perm_insertionSort _ o).mem_iff

theorem jsEntries_length {α : Type} (o : JsObj α) :
    (jsEntries o).length = o.length :=
  (List.perm_insertionSort _ o).length_eq

theorem jsKeys_length {α : Type} (o : JsObj α) : (jsKeys o).length = o.length := by
  rw [jsKeys, List.length_map]
  exact jsEntries_length o

theorem jsEntries_sorted {α : Type} (o : JsObj α) :
    (jsEntries o).Pairwise (fun a b => a.1 ≤ b.1) :=
  List.sorted_insertionSort _ o

theorem jsEntries_keys_nodup {α : Type} {o : JsObj α} (h : objWF o) :
    ((jsEntries o).map (fun p => p.1)).Nodup := by
  rw [objWF] at h
  exact (((List.perm_insertionSort (fun a b : Nat × α => a.1 ≤ b.1) o).map
    (fun p => p.1)).nodup_iff).mpr h

theorem jsEntries_pairwise_lt {α : Type} {o : JsObj α} (h : objWF o) :
    (jsEntries o).Pairwise (fun a b => a.1 < b.1) := by
  have hs := jsEntries_sorted o
  have hn : (jsEntries o).Pairwise (fun a b => a.1 ≠ b.1) := by
    exact List.pairwise_map.mp (jsEntries_keys_nodup h)
  exact (List.pairwise_and_iff.mpr ⟨hs, hn⟩).imp
    (fun h2 => lt_of_le_of_ne h2.1 h2.2)

/-! ## Lemmas: the reconciliation pass -/

theorem itemsTotal_append (xs ys : List CartItem) :
    itemsTotal (xs ++ ys) = itemsTotal xs + itemsTotal ys := by
  simp [itemsTotal]

theorem foldl_reconcileTicketStep (ev : Event) (l : List (Nat × Int))
    (acc : List CartItem × Int) :
    (l.foldl (reconcileTicketStep ev) acc).1 = acc.1 ++ ticketItemsOf ev l ∧
      (l.foldl (reconcileTicketStep ev) acc).2 =
        acc.2 + itemsTotal (ticketItemsOf ev l) := by
  induction l generalizing acc with
  | nil => simp [ticketItemsOf, itemsTotal]
  | cons p rest ih =>
      cases hf : ev.tickets.find? (fun tk => tk.id == p.1) with
      | none =>
          have h2 : ticketItemsOf ev (p :: rest) = ticketItemsOf ev rest := by
            simp [ticketItemsOf, List.filterMap_cons, hf]
          simp only [List.foldl_cons, reconcileTicketStep, hf, h2]
          exact ih acc
      | some tk =>
          have h2 : ticketItemsOf ev (p :: rest) =
              mkCartItem ev tk p.2 :: ticketItemsOf ev rest := by
            simp [ticketItemsOf, List.filterMap_cons, hf]
          simp only [List.foldl_cons, reconcileTicketStep, hf, h2]
          obtain ⟨ha, hb⟩ :=
            ih (acc.1 ++ [mkCartItem ev tk p.2], acc.2 + tk.price * p.2)
          constructor
          · rw [ha]
            simp
          · rw [hb]
            simp only [itemsTotal, List.map_cons, List.sum_cons, mkCartItem]
            ring
  
theorem foldl_reconcileEventStep (eventsData : List Event)
    (l : List (Nat × TicketMap)) (acc : List CartItem × Int) :
    (l.foldl (reconcileEventStep eventsData) acc).1 =
        acc.1 ++ eventItemsOf eventsData l ∧
      (l.foldl (reconcileEventStep eventsData) acc).2 =
        acc.2 + itemsTotal (eventItemsOf eventsData l) := by
  induction l generalizing acc with
  | nil => simp [eventItemsOf, itemsTotal]
  | cons p rest ih =>
      cases hf : lookupEventsMap eventsData p.1 with
      | none =>
          have h2 : eventItemsOf eventsData (p :: rest) =
              eventItemsOf eventsData rest := by
            simp [eventItemsOf, List.flatMap_cons, hf]
          simp only [List.foldl_cons, reconcileEventStep, hf, h2]
          exact ih acc
      | some ev =>
          have h2 : eventItemsOf eventsData (p :: rest) =
              reconcileEventItems ev p.2 ++ eventItemsOf eventsData rest := by
            simp [eventItemsOf, List.flatMap_cons, hf]
          simp only [List.foldl_cons, reconcileEventStep, hf, h2]
          obtain ⟨hi1, hi2⟩ := foldl_reconcileTicketStep ev (jsEntries p.2) acc
          obtain ⟨ha, hb⟩ := ih ((jsEntries p.2).foldl (reconcileTicketStep ev) acc)
          constructor
          · rw [ha, hi1, reconcileEventItems]
            simp [List.append_assoc]
          · rw [hb, hi2, reconcileEventItems, itemsTotal_append]
            ring

/-- The single pass computes exactly the specification-side item list and
its price-times-quantity total. -/
theorem fetchCartDataCore_eq (savedCart : SavedCart) (eventsData : List Event) :
    fetchCartDataCore savedCart eventsData =
      (reconcileItems savedCart eventsData,
        itemsTotal (reconcileItems savedCart eventsData)) := by
  obtain ⟨h1, h2⟩ := foldl_reconcileEventStep eventsData (jsEntries savedCart) ([], 0)
  rw [fetchCartDataCore] at *
  rw [reconcileItems]
  exact Prod.ext_iff.mpr ⟨by simpa using h1, by simpa using h2⟩

theorem lookupEventsMap_aux {eventsData : List Event} {k : Nat}
    {init : Option Event} {ev : Event}
    (h : eventsData.foldl (fun acc e => if e.id == k then some e else acc) init
      = some ev) : ev.id = k ∨ init = some ev := by
  induction eventsData generalizing init with
  | nil => exact Or.inr h
  | cons e rest ih =>
      rw [List.foldl_cons] at h
      rcases ih h with h2 | h2
      · exact Or.inl h2
      · by_cases he : e.id = k
        · rw [if_pos (by simpa using he)] at h2
          cases h2
          exact Or.inl he
        · rw [if_neg (by simpa using he)] at h2
          exact Or.inr h2

/-- A hit in the events map carries the looked-up id. -/
theorem lookupEventsMap_id {eventsData : List Event} {k : Nat} {ev : Event}
    (h : lookupEventsMap eventsData k = some ev) : ev.id = k := by
  rcases lookupEventsMap_aux (h : eventsData.foldl _ none = some ev) with h2 | h2
  · exact h2
  · cases h2

/-- A hit in the ticket search carries the looked-up id. -/
theorem find?_ticket_id {tickets : List Ticket} {k : Nat} {tk : Ticket}
    (h : tickets.find? (fun t => t.id == k) = some tk) : tk.id = k := by
  simpa using List.find?_some h

/-- Exactly the cart entries whose event and ticket both resolve are
emitted. -/
theorem mem_reconcileItems {savedCart : SavedCart} {eventsData : List Event}
    {it : CartItem} :
    it ∈ reconcileItems savedCart eventsData ↔
      ∃ p ∈ jsEntries savedCart, ∃ ev, lookupEventsMap eventsData p.1 = some ev ∧
        ∃ q ∈ jsEntries p.2, ∃ tk,
          ev.tickets.find? (fun tkt => tkt.id == q.1) = some tk ∧
            it = mkCartItem ev tk q.2 := by
  rw [reconcileItems, eventItemsOf, List.mem_flatMap]
  constructor
  · rintro ⟨p, hp, hit⟩
    cases hf : lookupEventsMap eventsData p.1 with
    | none =>
        rw [hf] at hit
        simp at hit
    | some ev =>
        rw [hf] at hit
        simp only [reconcileEventItems, ticketItemsOf, List.mem_filterMap] at hit
        obtain ⟨q, hq, hmap⟩ := hit
        cases hfk : ev.tickets.find? (fun tkt => tkt.id == q.1) with
        | none =>
            rw [hfk] at hmap
            cases hmap
        | some tk =>
            rw [hfk] at hmap
            cases hmap
            exact ⟨p, hp, ev, hf, q, hq, tk, hfk, rfl⟩
  · rintro ⟨p, hp, ev, hf, q, hq, tk, hfk, hit⟩
    refine ⟨p, hp, ?_⟩
    rw [hf]
    simp only [reconcileEventItems, ticketItemsOf, List.mem_filterMap]
    exact ⟨q, hq, by rw [hfk, hit]; rfl⟩

/-- Every item emitted for one event carries that event id. -/
theorem eventId_of_mem_reconcileEventItems {ev : Event} {tm : TicketMap}
    {it : CartItem} (h : it ∈ reconcileEventItems ev tm) : it.eventId = ev.id := by
  rw [reconcileEventItems, ticketItemsOf, List.mem_filterMap] at h
  obtain ⟨q, hq, hmap⟩ := h
  cases hfk : ev.tickets.find? (fun tkt => tkt.id == q.1) with
  | none =>
      rw [hfk] at hmap
      cases hmap
  | some tk =>
      rw [hfk] at hmap
      cases hmap
      rfl

/-- The emitted item list of a well-formed cart is strictly ordered by
ascending event id, then ascending ticket id. -/
theorem reconcileItems_pairwise {savedCart : SavedCart} (eventsData : List Event)
    (hc : cartWF savedCart) :
    (reconcileItems savedCart eventsData).Pairwise itemLt := by
  rw [reconcileItems, eventItemsOf, List.pairwise_flatMap]
  constructor
  · intro p hp
    cases hf : lookupEventsMap eventsData p.1 with
    | none => simp
    | some ev =>
        have hwf2 : objWF p.2 := hc.2 p (mem_jsEntries.mp hp)
        have hlt := jsEntries_pairwise_lt hwf2
        show (reconcileEventItems ev p.2).Pairwise itemLt
        rw [reconcileEventItems, ticketItemsOf, List.pairwise_filterMap]
        refine hlt.imp ?_
        intro q1 q2 hq x hx y hy
        rw [Option.mem_def, Option.map_eq_some'] at hx hy
        obtain ⟨tk1, hf1, hx1⟩ := hx
        obtain ⟨tk2, hf2, hy1⟩ := hy
        subst hx1
        subst hy1
        refine Or.inr ⟨rfl, ?_⟩
        show tk1.id < tk2.id
        rw [find?_ticket_id hf1, find?_ticket_id hf2]
        exact hq
  · have hlt := jsEntries_pairwise_lt hc.1
    refine hlt.imp ?_
    intro p1 p2 hp x hx y hy
    cases hf1 : lookupEventsMap eventsData p1.1 with
    | none =>
        rw [hf1] at hx
        simp at hx
    | some ev1 =>
        cases hf2 : lookupEventsMap eventsData p2.1 with
        | none =>
            rw [hf2] at hy
            simp at hy
        | some ev2 =>
            rw [hf1] at hx
            rw [hf2] at hy
            refine Or.inl ?_
            rw [eventId_of_mem_reconcileEventItems hx,
              eventId_of_mem_reconcileEventItems hy,
              lookupEventsMap_id hf1, lookupEventsMap_id hf2]
            exact hp

/-! ## Lemmas: the phone validation regex -/

theorem uint32_le_iff (a b : UInt32) : a ≤ b ↔ a.toNat ≤ b.toNat := by
  rw [UInt32.le_def, BitVec.le_def]
  rfl

theorem char_le_iff (a b : Char) : a ≤ b ↔ a.val.toNat ≤ b.val.toNat := by
  rw [Char.le_def, uint32_le_iff]

theorem char_ne_iff (a b : Char) : a ≠ b ↔ a.val.toNat ≠ b.val.toNat := by
  constructor
  · intro h h2
    exact h (Char.ext (UInt32.toNat.inj h2))
  · intro h h2
    subst h2
    exact h rfl

/-- The character class of the regex first digit: 1 through 9 is the same as
digit-other-than-0. -/
theorem char_one_nine_iff (c : Char) :
    ('1' ≤ c ∧ c ≤ '9') ↔ (c.isDigit = true ∧ c ≠ '0') := by
  rw [char_le_iff, char_le_iff, char_ne_iff, Char.isDigit]
  simp only [Bool.and_eq_true, decide_eq_true_eq, ge_iff_le, uint32_le_iff]
  have h1 : ('1').val.toNat = 49 := rfl
  have h9 : ('9').val.toNat = 57 := rfl
  have h0 : ('0').val.toNat = 48 := rfl
  have h48 : (48 : UInt32).toNat = 48 := rfl
  have h57 : (57 : UInt32).toNat = 57 := rfl
  rw [h1, h9, h0, h48, h57]
  omega

/-- The regex accepts exactly the strings of the claimed phone format. -/
theorem phoneRegexAccepts_iff (s : String) :
    phoneRegexAccepts s = true ↔ PhoneClaimFormat s := by
  rcases hd : s.data with _ | ⟨c0, _ | ⟨c1, rest⟩⟩
  · simp [phoneRegexAccepts, hd, PhoneClaimFormat]
  · simp [phoneRegexAccepts, hd, PhoneClaimFormat]
  · simp only [phoneRegexAccepts, hd, Bool.and_eq_true, beq_iff_eq,
      decide_eq_true_eq, List.all_eq_true]
    constructor
    · rintro ⟨⟨⟨⟨⟨hplus, hge⟩, hle⟩, hdig⟩, hlen1⟩, hlen2⟩
      obtain ⟨hd1, hd2⟩ := (char_one_nine_iff c1).mp ⟨hge, hle⟩
      refine ⟨c1, rest, ?_, hd1, hd2, ?_, by omega, by omega⟩
      · rw [hd, hplus]
      · intro c hc
        exact hdig c hc
    · rintro ⟨d, ds, heq, hdig, hne, hall, hl1, hl2⟩
      rw [hd] at heq
      cases heq
      obtain ⟨hge, hle⟩ := (char_one_nine_iff c1).mpr ⟨hdig, hne⟩
      exact ⟨⟨⟨⟨⟨rfl, hge⟩, hle⟩, fun c hc => hall c hc⟩, by omega⟩, by omega⟩

/-! ## Claim theorems -/

/-- Claim C1 (confirmed): reconciling the persisted cart mapping event 1 to
quantities 2 of ticket 10 and 1 of ticket 11 against a response containing
event 1 (named Event1, with the VIP 1000/5 and Regular 500/20 tickets)
produces exactly the two line items Event1 - VIP (price 1000, quantity 2)
and Event1 - Regular (price 500, quantity 1) in that order, with the total
2500 equal to the sum of unit price times quantity over the emitted items. -/
theorem claimC1 :
    fetchCartData (some cartOneStr) (FetchResult.ok [eventOne]) =
      { state := CheckoutState.loaded
          [{ id := 10, eventId := 1, name := "Event1 - VIP", ticketName := "VIP",
             eventName := "Event1", price := 1000, quantity := 2,
             ticketsAvailable := 5 },
           { id := 11, eventId := 1, name := "Event1 - Regular",
             ticketName := "Regular", eventName := "Event1", price := 500,
             quantity := 1, ticketsAvailable := 20 }] 2500,
        fetchIssued := true } ∧
      itemsTotal (fetchCartDataCore [(1, [(10, 2), (11, 1)])] [eventOne]).1 =
        (fetchCartDataCore [(1, [(10, 2), (11, 1)])] [eventOne]).2 ∧
      (fetchCartDataCore [(1, [(10, 2), (11, 1)])] [eventOne]).2 = 2500 := by
  refine ⟨by decide, by decide, by decide⟩

/-- Claim C7 (confirmed): a persisted cart with no event keys reconciles to
an empty line-item list and total 0 with the batched fetch never issued. -/
theorem claimC7 (savedCart : SavedCart) (fetch : FetchResult)
    (h : jsKeys savedCart = []) :
    fetchCartDataParsed (some savedCart) fetch =
      { state := CheckoutState.loaded [] 0, fetchIssued := false } := by
  simp [fetchCartDataParsed, h]

/-- Witness for C7 at the empty cart. -/
theorem claimC7_witness :
    fetchCartDataParsed (some []) (FetchResult.ok []) =
      { state := CheckoutState.loaded [] 0, fetchIssued := false } :=
  claimC7 [] (FetchResult.ok []) rfl

/-- Claim C3 (counterexample): the stored string x is not valid JSON, yet the
code does not behave as if the key were absent: the checkout read lands in
the error state (an absent key yields the loaded empty cart), the counter
mount read propagates the parse failure, and so does the read inside the
store write. -/
theorem claimC3_cex :
    jsonParseCart "x" = none ∧
      fetchCartData (some "x") (FetchResult.ok []) =
        { state := CheckoutState.errorState, fetchIssued := false } ∧
      fetchCartData none (FetchResult.ok []) =
        { state := CheckoutState.loaded [] 0, fetchIssued := false } ∧
      fetchCartData (some "x") (FetchResult.ok []) ≠
        fetchCartData none (FetchResult.ok []) ∧
      ticketCounterMountRead (some "x") 1 10 = none ∧
      ticketCounterMountRead none 1 10 = some 0 ∧
      updateCartStored (some "x") 1 10 1 = none := by
  refine ⟨rfl, rfl, rfl, by decide, rfl, rfl, rfl⟩

/-- Claim C3 (amended): an absent key and the empty stored string are read as
the empty cart, but a non-empty stored string on which the parse throws is
not: the reconciler catches the throw and surfaces the error state with no
fetch issued, while the counter mount read and the store write propagate the
failure. -/
theorem claimC3amended (s : String) (fetch : FetchResult) (e t : Nat) (q : Int)
    (hbad : jsonParseCart s = none) (hne : s ≠ "") :
    fetchCartData (some s) fetch =
        { state := CheckoutState.errorState, fetchIssued := false } ∧
      ticketCounterMountRead (some s) e t = none ∧
      updateCartStored (some s) e t q = none ∧
      parseTicketCart none = some [] ∧
      parseTicketCart (some "") = some [] := by
  have hp : parseTicketCart (some s) = none := by
    simp only [parseTicketCart, if_neg hne]
    exact hbad
  refine ⟨?_, ?_, ?_, rfl, rfl⟩
  · rw [fetchCartData, hp]
    rfl
  · rw [ticketCounterMountRead, hp]
    rfl
  · rw [updateCartStored, hp]
    rfl

/-- Witness for the amended C3 at the malformed string x. -/
theorem claimC3amended_witness :
    fetchCartData (some "x") (FetchResult.ok []) =
        { state := CheckoutState.errorState, fetchIssued := false } ∧
      ticketCounterMountRead (some "x") 1 10 = none ∧
      updateCartStored (some "x") 1 10 1 = none ∧
      parseTicketCart none = some [] ∧
      parseTicketCart (some "") = some [] :=
  claimC3amended "x" (FetchResult.ok []) 1 10 1 rfl (by decide)

/-- Claim C5 (counterexample): the store write tests quantity strictly equal
to 0, so a negative quantity is not removed but stored as is. -/
theorem claimC5_cex :
    updateCart [(1, [(10, 2)])] 1 10 (-1) = [(1, [(10, -1)])] ∧
      jsGet2 (updateCart [(1, [(10, 2)])] 1 10 (-1)) 1 10 = some (-1) := by
  refine ⟨by decide, by decide⟩

/-- Claim C5 (amended): quantity exactly 0 removes the ticket entry (and the
event entry when that ticket was its last, including the case of an event
absent before the call), while every non-zero quantity, negative included, is
upserted. -/
theorem claimC5amended (cart : SavedCart) (e t : Nat) (hwf : cartWF cart) :
    jsGet2 (updateCart cart e t 0) e t = none ∧
      (∀ m : TicketMap, jsGet cart e = some m → jsDelete m t = [] →
        jsGet (updateCart cart e t 0) e = none) ∧
      (jsGet cart e = none → updateCart cart e t 0 = cart) ∧
      (∀ q : Int, q ≠ 0 → jsGet2 (updateCart cart e t q) e t = some q) := by
  refine ⟨?_, ?_, ?_, ?_⟩
  · have h := jsGet2_updateCart_self e t 0 hwf
    simpa using h
  · intro m hg hlast
    exact updateCart_zero_last_ticket hwf hg hlast
  · intro hg
    exact updateCart_zero_of_get_none t hg
  · intro q hq
    have h := jsGet2_updateCart_self e t q hwf
    rwa [if_neg hq] at h

/-- Witness for the amended C5: removing the ticket deletes its entry. -/
theorem claimC5amended_witness :
    jsGet2 (updateCart [(1, [(10, 2), (11, 1)])] 1 10 0) 1 10 = none :=
  (claimC5amended [(1, [(10, 2), (11, 1)])] 1 10 (by decide)).1

/-- Claim C2 (confirmed): a cart entry whose event or ticket is missing from
the fetch response is omitted from the emitted items and contributes nothing
to the total (the total is exactly the sum over emitted items); every entry
whose event and ticket are both found is emitted; and for any parsed cart a
successful fetch always yields the loaded state, never a validation error. -/
theorem claimC2 (savedCart : SavedCart) (eventsData : List Event) :
    (∀ p, p ∈ jsEntries savedCart → ∀ q, q ∈ jsEntries p.2 →
        eventTicketLookup eventsData p.1 q.1 = none →
        ∀ it ∈ (fetchCartDataCore savedCart eventsData).1,
          ¬(it.eventId = p.1 ∧ it.id = q.1)) ∧
      (∀ p, p ∈ jsEntries savedCart → ∀ q, q ∈ jsEntries p.2 →
        ∀ ev tk, eventTicketLookup eventsData p.1 q.1 = some (ev, tk) →
          mkCartItem ev tk q.2 ∈ (fetchCartDataCore savedCart eventsData).1) ∧
      (fetchCartDataCore savedCart eventsData).2 =
        itemsTotal (fetchCartDataCore savedCart eventsData).1 ∧
      (fetchCartDataParsed (some savedCart) (FetchResult.ok eventsData)).state =
        CheckoutState.loaded (fetchCartDataCore savedCart eventsData).1
          (fetchCartDataCore savedCart eventsData).2 := by
  have hcore := fetchCartDataCore_eq savedCart eventsData
  refine ⟨?_, ?_, ?_, ?_⟩
  · intro p _hp q _hq hnone it hit hcontra
    obtain ⟨he, hi⟩ := hcontra
    rw [hcore] at hit
    obtain ⟨p2, _hp2, ev, hf, q2, _hq2, tk, hfk, hit2⟩ :=
      mem_reconcileItems.mp hit
    subst hit2
    have hev : ev.id = p.1 := he
    have htk : tk.id = q.1 := hi
    have hep : p2.1 = p.1 := (lookupEventsMap_id hf).symm.trans hev
    have hqt : q2.1 = q.1 := (find?_ticket_id hfk).symm.trans htk
    have hsome : eventTicketLookup eventsData p.1 q.1 = some (ev, tk) := by
      rw [← hep, ← hqt, eventTicketLookup, hf, Option.some_bind, hfk]
      rfl
    rw [hsome] at hnone
    cases hnone
  · intro p hp q hq ev tk hsome
    rw [hcore]
    cases hf : lookupEventsMap eventsData p.1 with
    | none =>
        rw [eventTicketLookup, hf, Option.none_bind] at hsome
        cases hsome
    | some ev2 =>
        rw [eventTicketLookup, hf, Option.some_bind] at hsome
        cases hfk : ev2.tickets.find? (fun tkt => tkt.id == q.1) with
        | none =>
            rw [hfk] at hsome
            cases hsome
        | some tk2 =>
            rw [hfk, Option.map_some'] at hsome
            cases hsome
            exact mem_reconcileItems.mpr ⟨p, hp, ev, hf, q, hq, tk, hfk, rfl⟩
  · rw [hcore]
  · rw [fetchCartDataParsed]
    split
    · rename_i hlen
      have hnil : savedCart = [] := by
        have h2 := jsKeys_length savedCart
        rw [hlen] at h2
        exact List.length_eq_zero.mp h2.symm
      subst hnil
      rfl
    · rfl

/-- Witness for C2: in a cart holding a live entry (event 1, ticket 10) and a
stale one (event 2, unknown to the response), the live entry is emitted. -/
theorem claimC2_witness :
    mkCartItem eventOne vipTicket 2 ∈
      (fetchCartDataCore [(1, [(10, 2)]), (2, [(99, 1)])] [eventOne]).1 :=
  (claimC2 [(1, [(10, 2)]), (2, [(99, 1)])] [eventOne]).2.1 (1, [(10, 2)])
    (by decide) (10, 2) (by decide) eventOne vipTicket (by decide)

/-- Claim C9 (confirmed): an emitted line item takes its display name from
the fetched event and ticket names joined by a dash, its unit price, and its
stock ceiling from the fetched ticket, and passes the persisted quantity
through unmodified, with no clamping against availability. -/
theorem claimC9 (savedCart : SavedCart) (eventsData : List Event)
    (p : Nat × TicketMap) (q : Nat × Int) (ev : Event) (tk : Ticket)
    (hp : p ∈ jsEntries savedCart) (hq : q ∈ jsEntries p.2)
    (hev : lookupEventsMap eventsData p.1 = some ev)
    (htk : ev.tickets.find? (fun tkt => tkt.id == q.1) = some tk) :
    mkCartItem ev tk q.2 ∈ (fetchCartDataCore savedCart eventsData).1 ∧
      (mkCartItem ev tk q.2).name = ev.name ++ " - " ++ tk.name ∧
      (mkCartItem ev tk q.2).price = tk.price ∧
      (mkCartItem ev tk q.2).ticketsAvailable = tk.tickets_available ∧
      (mkCartItem ev tk q.2).quantity = q.2 := by
  refine ⟨?_, rfl, rfl, rfl, rfl⟩
  rw [fetchCartDataCore_eq]
  exact mem_reconcileItems.mpr ⟨p, hp, ev, hev, q, hq, tk, htk, rfl⟩

/-- Witness for C9 with a persisted quantity of 7 against availability 5:
the quantity is passed through unclamped. -/
theorem claimC9_witness :
    mkCartItem eventOne vipTicket 7 ∈
      (fetchCartDataCore [(1, [(10, 7)])] [eventOne]).1 ∧
      (mkCartItem eventOne vipTicket 7).name = "Event1" ++ " - " ++ "VIP" ∧
      (mkCartItem eventOne vipTicket 7).price = 1000 ∧
      (mkCartItem eventOne vipTicket 7).ticketsAvailable = 5 ∧
      (mkCartItem eventOne vipTicket 7).quantity = 7 :=
  claimC9 [(1, [(10, 7)])] [eventOne] (1, [(10, 7)]) (10, 7) eventOne vipTicket
    (by decide) (by decide) (by decide) (by decide)

/-- Claim C4 (counterexample): a cart whose ticket keys were inserted in the
order 11 then 10 under event 1 is emitted with ticket 10 first: emission
follows ascending numeric id order, not insertion order. -/
theorem claimC4_cex :
    updateCart (updateCart [] 1 11 1) 1 10 2 = [(1, [(11, 1), (10, 2)])] ∧
      (fetchCartDataCore [(1, [(11, 1), (10, 2)])] [eventOne]).1 ≠
        reconcileItemsInsertionOrder [(1, [(11, 1), (10, 2)])] [eventOne] ∧
      (fetchCartDataCore [(1, [(11, 1), (10, 2)])] [eventOne]).1.map
          (fun it => it.id) = [10, 11] ∧
      (reconcileItemsInsertionOrder [(1, [(11, 1), (10, 2)])] [eventOne]).map
          (fun it => it.id) = [11, 10] := by
  refine ⟨by decide, by decide, by decide, by decide⟩

/-- Claim C4 (amended): for a well-formed cart the reconciler emits line
items in ascending numeric event-id order, and within one event in ascending
numeric ticket-id order; this coincides with insertion order only when keys
were inserted ascending. -/
theorem claimC4amended (savedCart : SavedCart) (eventsData : List Event)
    (hwf : cartWF savedCart) :
    ((fetchCartDataCore savedCart eventsData).1).Pairwise itemLt := by
  rw [fetchCartDataCore_eq]
  exact reconcileItems_pairwise eventsData hwf

/-- Witness for the amended C4 on the insertion-disordered cart. -/
theorem claimC4amended_witness :
    ((fetchCartDataCore [(1, [(11, 1), (10, 2)])] [eventOne]).1).Pairwise itemLt :=
  claimC4amended [(1, [(11, 1), (10, 2)])] [eventOne] (by decide)

/-- Claim C6 (counterexample): with stock ceiling 5 but stored quantity 7 the
displayed quantity starts at 7 and stays above the ceiling, so it does not
remain within the interval 0 to the ceiling. -/
theorem claimC6_cex :
    (runCounter [(1, [(10, 7)])] 1 10 5 []).count = 7 ∧
      (runCounter [(1, [(10, 7)])] 1 10 5 [CounterOp.increase]).count = 7 ∧
      ¬((runCounter [(1, [(10, 7)])] 1 10 5 []).count ≤ 5) := by
  refine ⟨by decide, by decide, by decide⟩

/-- Claim C6 (amended): provided the stored starting quantity lies within 0
and the ceiling, every interaction sequence keeps the displayed quantity
within those bounds and equal to the value a fresh store read returns, the
latest notification always reports the displayed quantity, increment is a
no-op at the ceiling, and decrement is a no-op at 0. -/
theorem claimC6amended (cart : SavedCart) (e t : Nat) (C : Int)
    (ops : List CounterOp) (hwf : cartWF cart)
    (h0 : 0 ≤ mountCount cart e t) (hC : mountCount cart e t ≤ C) :
    (0 ≤ (runCounter cart e t C ops).count ∧
        (runCounter cart e t C ops).count ≤ C) ∧
      (runCounter cart e t C ops).count =
        mountCount (runCounter cart e t C ops).cart e t ∧
      ((runCounter cart e t C ops).notified = [] ∨
        (runCounter cart e t C ops).notified.getLast? =
          some (runCounter cart e t C ops).count) ∧
      (∀ s : CounterState, s.count = C →
        counterStep e t C s CounterOp.increase = s) ∧
      (∀ s : CounterState, s.count = 0 →
        counterStep e t C s CounterOp.decrease = s) := by
  obtain ⟨_h1, h2, h3, h4, h5⟩ := runCounter_inv e t C cart ops hwf h0 hC
  refine ⟨⟨h2, h3⟩, h4, h5, ?_, ?_⟩
  · intro s hs
    show handleIncrease e t C s = s
    rw [handleIncrease, if_neg (by omega)]
  · intro s hs
    show handleDecrease e t s = s
    rw [handleDecrease, if_neg (by omega)]

/-- Witness for the amended C6 from the empty cart with ceiling 5. -/
theorem claimC6amended_witness :
    0 ≤ (runCounter [] 1 10 5 [CounterOp.increase, CounterOp.decrease]).count ∧
      (runCounter [] 1 10 5 [CounterOp.increase, CounterOp.decrease]).count ≤ 5 :=
  (claimC6amended [] 1 10 5 [CounterOp.increase, CounterOp.decrease]
    (by decide) (by decide) (by decide)).1

/-- Claim C8 (confirmed): the phone validator accepts exactly a leading plus,
a first digit other than 0, and 1 to 14 further digits (2 to 15 digits after
the plus in total); it accepts the sample Kenyan number, rejects the same
number without the plus and a plus followed by 0, and any rejected input
resolves to the field-level error with no order placed and no network
attempt. -/
theorem claimC8 :
    (∀ s : String, phoneRegexAccepts s = true ↔ PhoneClaimFormat s) ∧
      phoneRegexAccepts "+254712345678" = true ∧
      phoneRegexAccepts "254712345678" = false ∧
      phoneRegexAccepts "+0712345678" = false ∧
      (∀ s : String, phoneRegexAccepts s = false →
        checkoutSubmit s = SubmitOutcome.fieldError) := by
  refine ⟨phoneRegexAccepts_iff, by decide, by decide, by decide, ?_⟩
  intro s hs
  rw [checkoutSubmit, hs]
  rfl

/-- Witness for C8 at a rejected input. -/
theorem claimC8_witness : checkoutSubmit "abc" = SubmitOutcome.fieldError :=
  claimC8.2.2.2.2 "abc" (by decide)

/-- Claim C10 (confirmed): a store write touches only its own (event, ticket)
entry: every other event key keeps its sub-map and every other ticket key
under the written event keeps its quantity. -/
theorem claimC10 (cart : SavedCart) (e t : Nat) (q : Int) (hwf : cartWF cart) :
    (∀ x, x ≠ e → jsGet (updateCart cart e t q) x = jsGet cart x) ∧
      (∀ y, y ≠ t → jsGet2 (updateCart cart e t q) e y = jsGet2 cart e y) := by
  exact ⟨fun x hx => updateCart_get_other t q hx,
    fun y hy => updateCart_get2_other q hwf hy⟩

/-- Witness for C10 on a two-event cart. -/
theorem claimC10_witness :
    jsGet (updateCart [(1, [(10, 2), (11, 1)]), (2, [(5, 3)])] 1 10 4) 2 =
        jsGet [(1, [(10, 2), (11, 1)]), (2, [(5, 3)])] 2 ∧
      jsGet2 (updateCart [(1, [(10, 2), (11, 1)]), (2, [(5, 3)])] 1 10 4) 1 11 =
        jsGet2 [(1, [(10, 2), (11, 1)]), (2, [(5, 3)])] 1 11 :=
  ⟨(claimC10 [(1, [(10, 2), (11, 1)]), (2, [(5, 3)])] 1 10 4 (by decide)).1 2
      (by decide),
    (claimC10 [(1, [(10, 2), (11, 1)]), (2, [(5, 3)])] 1 10 4 (by decide)).2 11
      (by decide)⟩

end Ticketing
